import Mathlib

/-!
Shallow embedding of the PII detection and redaction core of `src/ISCP.py`.

The program reads CSV rows `(record_id, payload)`, parses the payload as a
JSON object, classifies the parsed record as PII (standalone regex match on
selected fields, else a two-or-more weak-signal combinatorial rule), redacts
a copy of the record when flagged, and emits `(record_id, json, "True"/"False")`.

Modelling conventions:
* A parsed JSON object is a `Record`: an ordered association list from field
  name to a scalar `JsonVal` (string / number / boolean / null), preserving
  the object's insertion order as Python dicts do.
* Python regular-expression matching with `re.match` on the anchored patterns
  of the source is embedded directly: `^...$` accepts the pattern's body over
  the whole string, or over the string minus one trailing newline, because
  Python's `$` also matches just before a final newline.
* Python's `\d` and `str.isdigit` are modelled on the ASCII digits `0`-`9`
  (`pyRegexDigit` / `pyStrDigit`).  In CPython both also accept further
  Unicode digit characters (and `str.isdigit` accepts strictly more such
  characters than `\d`); no theorem below depends on non-ASCII digits.
* `json.loads` is an external collaborator: the row-processing function takes
  a `loads : String → Option Record` argument, `none` meaning a parse whose
  `json.loads` raises `JSONDecodeError` (payloads parsing to non-object JSON
  values are outside the scope of the claims and are not modelled).
* `json.dumps` with its default arguments (`ensure_ascii=True`, separators
  `", "` and `": "`) is embedded as `dumps`.
* An uncaught Python exception is an `Except.error` naming the exception.
-/

/-- Scalar JSON values as stored in a parsed record (the tagged union
string / number / boolean / null). -/
inductive JsonVal where
  | vStr : String → JsonVal
  | vNum : Int → JsonVal
  | vBool : Bool → JsonVal
  | vNull : JsonVal
deriving DecidableEq, Repr

/-- A parsed JSON object: insertion-ordered association list from field name
to value. -/
abbrev Record := List (String × JsonVal)

/-- Python truthiness of a scalar JSON value (`bool(v)`): non-empty string,
non-zero number, `True`; `None` is falsy. -/
def pyTruthy : JsonVal → Bool
  | .vStr s => !(s == "")
  | .vNum n => !(n == 0)
  | .vBool b => b
  | .vNull => false

/-- The digit class of the source's regular expressions (`\d`), modelled on
ASCII `0`-`9`; CPython's `\d` additionally matches non-ASCII Unicode decimal
digits, on which no claim depends. -/
def pyRegexDigit (c : Char) : Bool := c.isDigit

/-- The digit test of Python's `str.isdigit`, modelled on ASCII `0`-`9`;
CPython accepts further Unicode digit characters, on which no claim
depends. -/
def pyStrDigit (c : Char) : Bool := c.isDigit

/-- Anchored match `^body$` as Python's `re.match` evaluates it: the body
must cover the whole string, or the whole string minus one trailing newline
(Python's `$` also matches just before a final newline). -/
def dollarAnchored (core : List Char → Bool) (cs : List Char) : Bool :=
  core cs || (cs.getLast? == some '\n' && core cs.dropLast)

/-- Body of the `phone` / `contact` pattern `\d{10}`. -/
def phoneCore (cs : List Char) : Bool :=
  cs.length == 10 && cs.all pyRegexDigit

/-- Body of the `aadhar` pattern `\d{12}`. -/
def aadharCore (cs : List Char) : Bool :=
  cs.length == 12 && cs.all pyRegexDigit

/-- Character class `[A-Z0-9]` of the passport pattern. -/
def upperAlnum (c : Char) : Bool := c.isUpper || c.isDigit

/-- Body of the `passport` pattern `P[A-Z0-9]{7,8}` or `[A-Z]{1,2}\d{7,8}`
(the two alternation branches are each fully anchored in the source; the
letter and digit classes are disjoint, so the quantifier split is the count
of leading upper-case letters). -/
def passportCore (cs : List Char) : Bool :=
  (match cs with
   | 'P' :: rest => (rest.length == 7 || rest.length == 8) && rest.all upperAlnum
   | _ => false)
  ||
  (let us := cs.takeWhile Char.isUpper
   let ds := cs.drop us.length
   (us.length == 1 || us.length == 2)
     && (ds.length == 7 || ds.length == 8) && ds.all pyRegexDigit)

/-- Character class `[a-zA-Z0-9.\-_]` of the `upi_id` pattern. -/
def upiChar (c : Char) : Bool :=
  c.isAlpha || c.isDigit || c == '.' || c == '-' || c == '_'

/-- Body of the `upi_id` pattern `[a-zA-Z0-9.\-_]+@[a-zA-Z0-9.\-_]+`: the
class excludes `@`, so the match splits at the first `@`. -/
def upiCore (cs : List Char) : Bool :=
  match cs.span (fun c => !(c == '@')) with
  | (l, '@' :: r) => !l.isEmpty && l.all upiChar && !r.isEmpty && r.all upiChar
  | _ => false

/-- The `pii_types` table of `is_standalone_pii`: field name to compiled
pattern body (`none` for a field with no standalone pattern). -/
def piiPattern (key : String) : Option (List Char → Bool) :=
  if key == "phone" then some phoneCore
  else if key == "contact" then some phoneCore
  else if key == "aadhar" then some aadharCore
  else if key == "passport" then some passportCore
  else if key == "upi_id" then some upiCore
  else none

/-- `is_standalone_pii(key, value)`: `False` for non-string or empty values,
else `re.match` of the field's pattern over the whole value. -/
def is_standalone_pii (key : String) (value : JsonVal) : Bool :=
  match value with
  | .vStr s =>
    if s == "" then false
    else
      match piiPattern key with
      | some core => dollarAnchored core s.data
      | none => false
  | _ => false

/-- Python `record[key]` as a lookup in the ordered record (keys of a parsed
JSON object are unique, so first match is the match). -/
def lookupVal (record : Record) (key : String) : Option JsonVal :=
  (record.find? (fun kv => kv.1 == key)).map (fun kv => kv.2)

/-- Python `key in record`. -/
def hasKey (record : Record) (key : String) : Bool :=
  (lookupVal record key).isSome

/-- Truthiness of `record[key]`, `false` when the key is absent. -/
def truthyAt (record : Record) (key : String) : Bool :=
  match lookupVal record key with
  | some v => pyTruthy v
  | none => false

/-- The four weak-signal keys iterated by `is_combinatorial_pii`. -/
def combinatorialKeys : List String :=
  ["email", "address", "ip_address", "device_id"]

/-- `is_combinatorial_pii(record)`: full-name presence counts one signal,
each weak key present with a truthy value counts one signal, PII iff the
count reaches two. -/
def is_combinatorial_pii (record : Record) : Bool :=
  let has_full_name :=
    (hasKey record "first_name" && hasKey record "last_name") || hasKey record "name"
  let pii_count :=
    combinatorialKeys.foldl
      (fun acc key => if hasKey record key && truthyAt record key then acc + 1 else acc)
      (if has_full_name then 1 else 0)
  decide (2 ≤ pii_count)

/-- The field names fully replaced by `redact_data`. -/
def fullRedactKeys : List String :=
  ["name", "address", "email", "ip_address", "aadhar", "passport", "upi_id",
   "device_id", "first_name", "last_name"]

/-- Python `s.isdigit()`: non-empty and all characters digits. -/
def pyIsdigit (s : String) : Bool :=
  !s.data.isEmpty && s.data.all pyStrDigit

/-- The phone mask `value[:2] + "XXXXX" + value[-3:]`. -/
def maskPhone (s : String) : String :=
  ⟨s.data.take 2 ++ "XXXXX".data ++ s.data.drop (s.data.length - 3)⟩

/-- `redact_data(key, value)`: full replacement for most PII fields, middle
masking for ten-digit phone-like strings, anything else unchanged. -/
def redact_data (key : String) (value : JsonVal) : JsonVal :=
  if key ∈ fullRedactKeys then .vStr "[REDACTED_PII]"
  else if key ∈ ["phone", "contact"] then
    match value with
    | .vStr s =>
      if s.data.length == 10 && pyIsdigit s then .vStr (maskPhone s) else value
    | _ => value
  else value

/-- The redaction target set checked inside `process_csv` before calling
`redact_data`. -/
def redactTargetKeys : List String :=
  ["name", "email", "address", "ip_address", "device_id", "first_name",
   "last_name", "phone", "contact", "aadhar", "passport", "upi_id"]

/-- The redaction loop of `process_csv`: every field of the record whose name
is in the target set is rewritten by `redact_data`; other fields are copied
unchanged (order and key set preserved, as dict assignment preserves them). -/
def redactRecord (original_record : Record) : Record :=
  original_record.map (fun kv =>
    if kv.1 ∈ redactTargetKeys then (kv.1, redact_data kv.1 kv.2) else kv)

/-- The standalone scan of `process_csv`: `is_pii` becomes true on the first
field for which `is_standalone_pii` holds (the loop breaks, whose value is
exactly `List.any`). -/
def recordHasStandalone (record : Record) : Bool :=
  record.any (fun kv => is_standalone_pii kv.1 kv.2)

/-- The per-record core of `process_csv` after a successful parse: classify
on the original record (standalone first, else combinatorial), then redact a
copy iff flagged.  Returns `(record_id, output_record, is_pii)`. -/
def processRecord (record_id : String) (original_record : Record) :
    String × Record × Bool :=
  let is_pii := recordHasStandalone original_record
                  || is_combinatorial_pii original_record
  let redacted_data :=
    if is_pii then redactRecord original_record else original_record
  (record_id, redacted_data, is_pii)

/-- Lower-case hexadecimal digit. -/
def hexDigitChar (n : Nat) : Char :=
  if n < 10 then Char.ofNat (48 + n) else Char.ofNat (87 + n)

/-- Four lower-case hexadecimal digits, as in Python's `\uXXXX` escapes. -/
def hex4 (n : Nat) : String :=
  ⟨[hexDigitChar (n / 4096 % 16), hexDigitChar (n / 256 % 16),
    hexDigitChar (n / 16 % 16), hexDigitChar (n % 16)]⟩

/-- One character of `json.dumps` string output with `ensure_ascii=True`:
printable ASCII other than quote and backslash is emitted raw, the short
escapes cover the usual controls, everything else becomes `\uXXXX` (with a
surrogate pair above `U+FFFF`). -/
def escapeChar (c : Char) : String :=
  if c == '"' then "\\\""
  else if c == '\\' then "\\\\"
  else if 0x20 ≤ c.toNat && c.toNat ≤ 0x7e then ⟨[c]⟩
  else if c == '\n' then "\\n"
  else if c == '\t' then "\\t"
  else if c == '\r' then "\\r"
  else if c.toNat == 8 then "\\b"
  else if c.toNat == 12 then "\\f"
  else if c.toNat ≤ 0xffff then "\\u" ++ hex4 c.toNat
  else
    "\\u" ++ hex4 (0xd800 + (c.toNat - 0x10000) / 0x400)
      ++ "\\u" ++ hex4 (0xdc00 + (c.toNat - 0x10000) % 0x400)

/-- `json.dumps` of a string. -/
def dumpString (s : String) : String :=
  "\"" ++ String.join (s.data.map escapeChar) ++ "\""

/-- `json.dumps` of a scalar value. -/
def dumpVal : JsonVal → String
  | .vStr s => dumpString s
  | .vNum n => toString n
  | .vBool b => if b then "true" else "false"
  | .vNull => "null"

/-- `json.dumps` of a record with the default separators. -/
def dumps (record : Record) : String :=
  "\x7b"
    ++ String.intercalate ", "
         (record.map (fun kv => dumpString kv.1 ++ ": " ++ dumpVal kv.2))
    ++ "\x7d"

/-- One iteration of the row loop of `process_csv` over a data row (a list of
CSV cells).  `row[0]` and `row[1]` are subscripted before the `try` block, so
a row with fewer than two cells raises an uncaught `IndexError`; a payload on
which `loads` fails is recovered as `(record_id, payload, "False")`; otherwise
the parsed record is classified, conditionally redacted, serialized, and the
flag printed with Python's `str` on booleans. -/
def processDataRow (loads : String → Option Record) (row : List String) :
    Except String (List String) :=
  match row with
  | record_id :: data_json_str :: _ =>
    match loads data_json_str with
    | none => .ok [record_id, data_json_str, "False"]
    | some data =>
      let result := processRecord record_id data
      .ok [result.1, dumps result.2.1, if result.2.2 then "True" else "False"]
  | _ => .error "IndexError"

/-- Spec-side definition (for the combinatorial-rule claims): the full-name
signal exactly as the spec words it — `first_name` and `last_name` both
present, or `name` present, presence meaning the key exists regardless of
the value. -/
def nameSignalSpec (record : Record) : Bool :=
  (hasKey record "first_name" && hasKey record "last_name") || hasKey record "name"

/-- Spec-side definition: a weak signal counts when the key exists and its
value is truthy. -/
def weakSignalSpec (record : Record) (key : String) : Bool :=
  hasKey record key && truthyAt record key

/-- Spec-side definition: total combinatorial signal count of a record. -/
def signalCountSpec (record : Record) : Nat :=
  (if nameSignalSpec record then 1 else 0)
    + combinatorialKeys.countP (fun k => weakSignalSpec record k)

/-- Spec-side definition for the amended phone-pattern claim: the value is
exactly ten digits, or exactly ten digits followed by a single trailing
newline (the digit class as in `pyRegexDigit`). -/
def phoneClaimSpec (s : String) : Bool :=
  (s.data.length == 10 && s.data.all pyRegexDigit)
  || (s.data.length == 11 && s.data.getLast? == some '\n'
        && (s.data.take 10).all pyRegexDigit)

/-- Whether a scalar JSON value is a string. -/
def isStrVal : JsonVal → Bool
  | .vStr _ => true
  | _ => false

theorem foldl_count (p : String → Bool) (l : List String) :
    ∀ n : Nat,
      l.foldl (fun acc k => if p k then acc + 1 else acc) n = n + l.countP p := by
  induction l with
  | nil => intro n; simp
  | cons k t ih =>
    intro n
    by_cases h : p k
    · simp [h, ih, List.countP_cons]
      try omega
    · simp [h, ih, List.countP_cons]
      try omega

theorem comb_eq_count (record : Record) :
    is_combinatorial_pii record = decide (2 ≤ signalCountSpec record) := by
  simp only [is_combinatorial_pii, signalCountSpec, nameSignalSpec, weakSignalSpec]
  rw [foldl_count]

theorem lookupVal_cons (x : String × JsonVal) (l : Record) (key : String) :
    lookupVal (x :: l) key = if x.1 == key then some x.2 else lookupVal l key := by
  by_cases hb : x.1 == key <;> simp [lookupVal, List.find?_cons, hb]

theorem dollarAnchored_phoneCore (cs : List Char) :
    dollarAnchored phoneCore cs
      = ((cs.length == 10 && cs.all pyRegexDigit)
         || (cs.length == 11 && cs.getLast? == some '\n'
              && (cs.take 10).all pyRegexDigit)) := by
  unfold dollarAnchored phoneCore
  rw [Bool.eq_iff_iff]
  simp only [Bool.or_eq_true, Bool.and_eq_true, beq_iff_eq]
  constructor
  · rintro (h | ⟨hlast, hlen, hall⟩)
    · exact Or.inl h
    · right
      have hne : cs ≠ [] := by
        rintro rfl
        simp at hlast
      have hpos : 0 < cs.length := List.length_pos.mpr hne
      rw [List.length_dropLast] at hlen
      have h11 : cs.length = 11 := by omega
      rw [List.dropLast_eq_take, h11] at hall
      exact ⟨⟨h11, hlast⟩, hall⟩
  · rintro (h | ⟨⟨h11, hlast⟩, hall⟩)
    · exact Or.inl h
    · right
      refine ⟨hlast, ?_, ?_⟩
      · rw [List.length_dropLast, h11]
      · rw [List.dropLast_eq_take, h11]
        exact hall

theorem eq_of_mem_of_nodup_keys {l : Record} (hnd : (l.map Prod.fst).Nodup)
    {a b : String × JsonVal} (ha : a ∈ l) (hb : b ∈ l) (hab : a.1 = b.1) :
    a = b := by
  induction l with
  | nil => cases ha
  | cons x t ih =>
    rw [List.map_cons, List.nodup_cons] at hnd
    rcases List.mem_cons.mp ha with rfl | ha'
    · rcases List.mem_cons.mp hb with rfl | hb'
      · rfl
      · have hmem : b.1 ∈ t.map Prod.fst := List.mem_map_of_mem _ hb'
        rw [← hab] at hmem
        exact absurd hmem hnd.1
    · rcases List.mem_cons.mp hb with rfl | hb'
      · have hmem : a.1 ∈ t.map Prod.fst := List.mem_map_of_mem _ ha'
        rw [hab] at hmem
        exact absurd hmem hnd.1
      · exact ih hnd.2 ha' hb'

theorem find?_of_perm_of_unique {l l' : List (String × JsonVal)}
    {p : String × JsonVal → Bool}
    (hu : ∀ a b, a ∈ l → b ∈ l → p a = true → p b = true → a = b)
    (h : l.Perm l') : l.find? p = l'.find? p := by
  cases hfind : l.find? p with
  | none =>
    have hnone := List.find?_eq_none.mp hfind
    symm
    apply List.find?_eq_none.mpr
    intro x hx
    exact hnone x (h.mem_iff.mpr hx)
  | some a =>
    have hpa := List.find?_some hfind
    have hmem := List.mem_of_find?_eq_some hfind
    cases hfind' : l'.find? p with
    | none =>
      exact absurd hpa (List.find?_eq_none.mp hfind' a (h.mem_iff.mp hmem))
    | some b =>
      have hpb := List.find?_some hfind'
      have hmemb := h.mem_iff.mpr (List.mem_of_find?_eq_some hfind')
      exact congrArg some (hu a b hmem hmemb hpa hpb)

theorem lookupVal_of_perm {l l' : Record} (hnd : (l.map Prod.fst).Nodup)
    (h : l.Perm l') (key : String) : lookupVal l key = lookupVal l' key := by
  unfold lookupVal
  rw [find?_of_perm_of_unique ?hu h]
  case hu =>
    intro a b ha hb hpa hpb
    exact eq_of_mem_of_nodup_keys hnd ha hb ((eq_of_beq hpa).trans (eq_of_beq hpb).symm)

theorem any_of_perm {α : Type} (f : α → Bool) {l l' : List α} (h : l.Perm l') :
    l.any f = l'.any f := by
  rw [Bool.eq_iff_iff]
  simp only [List.any_eq_true]
  constructor
  · rintro ⟨x, hx, hfx⟩
    exact ⟨x, h.mem_iff.mp hx, hfx⟩
  · rintro ⟨x, hx, hfx⟩
    exact ⟨x, h.mem_iff.mpr hx, hfx⟩

theorem lookupVal_redact_of_notin (record : Record) (key : String)
    (h : key ∉ redactTargetKeys) :
    lookupVal (redactRecord record) key = lookupVal record key := by
  induction record with
  | nil => rfl
  | cons kv t ih =>
    have hred : redactRecord (kv :: t)
        = (if kv.1 ∈ redactTargetKeys then (kv.1, redact_data kv.1 kv.2) else kv)
          :: redactRecord t := rfl
    rw [hred]
    by_cases hk : kv.1 ∈ redactTargetKeys
    · have hb : (kv.1 == key) = false := by
        rw [beq_eq_false_iff_ne]
        intro he
        exact h (he ▸ hk)
      simp [if_pos hk, lookupVal_cons, hb, ih]
    · simp [if_neg hk, lookupVal_cons, ih]

theorem redact_data_phone_branch (key : String) (h1 : key ∉ fullRedactKeys)
    (h2 : key ∈ ["phone", "contact"]) (s : String) :
    redact_data key (.vStr s)
      = if s.data.length == 10 && pyIsdigit s then .vStr (maskPhone s)
        else .vStr s := by
  unfold redact_data
  rw [if_neg h1, if_pos h2]

theorem redact_data_idem (key : String) (value : JsonVal) :
    redact_data key (redact_data key value) = redact_data key value := by
  by_cases h1 : key ∈ fullRedactKeys
  · unfold redact_data
    rw [if_pos h1, if_pos h1]
  · by_cases h2 : key ∈ ["phone", "contact"]
    · cases value with
      | vStr s =>
        rw [redact_data_phone_branch key h1 h2 s]
        by_cases h3 : (s.data.length == 10 && pyIsdigit s) = true
        · rw [if_pos h3, redact_data_phone_branch key h1 h2 (maskPhone s)]
          have hX : pyStrDigit 'X' = false := by decide
          have hmask : ¬ (((maskPhone s).data.length == 10
              && pyIsdigit (maskPhone s)) = true) := by
            simp [pyIsdigit, maskPhone, hX]
          rw [if_neg hmask]
        · rw [if_neg h3, redact_data_phone_branch key h1 h2 s, if_neg h3]
      | vNum n =>
        unfold redact_data
        rw [if_neg h1, if_pos h2, if_neg h1, if_pos h2]
      | vBool b =>
        unfold redact_data
        rw [if_neg h1, if_pos h2, if_neg h1, if_pos h2]
      | vNull =>
        unfold redact_data
        rw [if_neg h1, if_pos h2, if_neg h1, if_pos h2]
    · unfold redact_data
      rw [if_neg h1, if_neg h2, if_neg h1, if_neg h2]

/-- C1: the spec claims every malformed input row (JSON parse failure or
missing payload column) is recovered locally and emitted as
`(recordId, rawPayload, False)`.  In the code only the parse failure is
recovered: `row[0]` and `row[1]` are subscripted before the `try` block, so a
row without a payload column raises an uncaught `IndexError` (even though the
`except` clause lists `IndexError`, documenting the intent to catch exactly
that case).  This theorem records both behaviors of the embedding. -/
theorem spec_c1_error_boundary :
    (∀ loads : String → Option Record,
        processDataRow loads [] = .error "IndexError")
    ∧ (∀ (loads : String → Option Record) (record_id : String),
        processDataRow loads [record_id] = .error "IndexError")
    ∧ (∀ (loads : String → Option Record) (record_id data_json_str : String)
        (rest : List String), loads data_json_str = none →
        processDataRow loads (record_id :: data_json_str :: rest)
          = .ok [record_id, data_json_str, "False"]) := by
  refine ⟨fun loads => rfl, fun loads record_id => rfl, ?_⟩
  intro loads record_id data_json_str rest h
  simp [processDataRow, h]

/-- Witness for `spec_c1_error_boundary` at concrete rows. -/
theorem spec_c1_error_boundary_witness :
    processDataRow (fun _ => none) [] = .error "IndexError"
    ∧ processDataRow (fun _ => none) ["3"] = .error "IndexError"
    ∧ processDataRow (fun _ => none) ["3", "not-json"]
        = .ok ["3", "not-json", "False"] :=
  ⟨spec_c1_error_boundary.1 (fun _ => none),
   spec_c1_error_boundary.2.1 (fun _ => none) "3",
   spec_c1_error_boundary.2.2 (fun _ => none) "3" "not-json" [] rfl⟩

/-- C2: if the emitted `is_pii` flag is true then the original record has a
field on which the standalone matcher returns true, or at least two
combinatorial signals; classification reads only the original record, so
redaction cannot erase this evidence. -/
theorem spec_c2_evidence_invariant (record_id : String) (record : Record)
    (h : (processRecord record_id record).2.2 = true) :
    (∃ kv ∈ record, is_standalone_pii kv.1 kv.2 = true)
      ∨ 2 ≤ signalCountSpec record := by
  have h' : (recordHasStandalone record || is_combinatorial_pii record) = true := h
  rw [Bool.or_eq_true] at h'
  rcases h' with hs | hc
  · left
    rcases List.any_eq_true.mp hs with ⟨kv, hmem, hkv⟩
    exact ⟨kv, hmem, hkv⟩
  · right
    rw [comb_eq_count] at hc
    exact of_decide_eq_true hc

/-- Witness for `spec_c2_evidence_invariant` on a record flagged through the
standalone phone rule. -/
theorem spec_c2_evidence_invariant_witness :
    (processRecord "1" [("phone", JsonVal.vStr "9876543210")]).2.2 = true
    ∧ ((∃ kv ∈ [("phone", JsonVal.vStr "9876543210")],
          is_standalone_pii kv.1 kv.2 = true)
        ∨ 2 ≤ signalCountSpec [("phone", JsonVal.vStr "9876543210")]) :=
  ⟨by decide,
   spec_c2_evidence_invariant "1" [("phone", JsonVal.vStr "9876543210")] (by decide)⟩

/-- C3 counterexample: the value `"1234567890\n"` has length 11 and contains
a non-digit character, yet the standalone matcher accepts it on field
`phone`, because Python's `$` also matches just before a trailing newline —
refuting the claim that every string of length other than ten, or containing
a non-digit, is rejected. -/
theorem spec_c3_counterexample :
    is_standalone_pii "phone" (.vStr "1234567890\n") = true
    ∧ ("1234567890\n" : String).data.length ≠ 10
    ∧ '\n' ∈ ("1234567890\n" : String).data
    ∧ pyRegexDigit '\n' = false := by
  refine ⟨by decide, by decide, by decide, by decide⟩

/-- C3 amended: on fields `phone` and `contact` the standalone matcher
accepts exactly the strings of ten digits, plus the strings of ten digits
followed by one trailing newline (Python `$` semantics); everything else is
rejected.  Digits here are the embedding's ASCII digit class. -/
theorem spec_c3_amended (s : String) :
    is_standalone_pii "phone" (.vStr s) = phoneClaimSpec s
    ∧ is_standalone_pii "contact" (.vStr s) = phoneClaimSpec s := by
  have key : ∀ k : String, piiPattern k = some phoneCore →
      is_standalone_pii k (.vStr s) = phoneClaimSpec s := by
    intro k hk
    by_cases hs : (s == "") = true
    · have hnil : s = "" := eq_of_beq hs
      subst hnil
      simp [is_standalone_pii, phoneClaimSpec]
    · show (if s == "" then false
        else match piiPattern k with
          | some core => dollarAnchored core s.data
          | none => false) = phoneClaimSpec s
      rw [if_neg hs, hk]
      show dollarAnchored phoneCore s.data = phoneClaimSpec s
      rw [dollarAnchored_phoneCore]
      rfl
  exact ⟨key "phone" rfl, key "contact" rfl⟩

/-- C4 counterexample: a truthy non-string value counts as a combinatorial
signal (`email` holding the number 5 flips the verdict), and a present but
empty-string `name` counts as the full-name signal — refuting the claim that
non-string or empty values never count toward classification. -/
theorem spec_c4_counterexample :
    is_combinatorial_pii [("email", JsonVal.vNum 5), ("address", JsonVal.vStr "x")] = true
    ∧ is_combinatorial_pii [("address", JsonVal.vStr "x")] = false
    ∧ is_combinatorial_pii [("name", JsonVal.vStr ""), ("email", JsonVal.vStr "x")] = true
    ∧ is_combinatorial_pii [("email", JsonVal.vStr "x")] = false := by
  refine ⟨by decide, by decide, by decide, by decide⟩

/-- C4 amended: non-string or empty values never match the standalone
matcher, and an empty-string value never counts as one of the four weak
combinatorial signals; however a truthy non-string value does count as a
weak signal, and the full-name signal counts key presence regardless of the
value (see the counterexample). -/
theorem spec_c4_amended :
    (∀ (key : String) (value : JsonVal),
        (isStrVal value = false ∨ value = .vStr "") →
        is_standalone_pii key value = false)
    ∧ (∀ (record : Record) (key : String),
        lookupVal record key = some (.vStr "") →
        weakSignalSpec record key = false) := by
  constructor
  · intro key value h
    cases value with
    | vStr s =>
      rcases h with h | h
      · exact absurd h (by simp [isStrVal])
      · cases h
        rfl
    | vNum n => rfl
    | vBool b => rfl
    | vNull => rfl
  · intro record key h
    simp [weakSignalSpec, truthyAt, h, pyTruthy]

/-- Witness for `spec_c4_amended` at concrete values. -/
theorem spec_c4_amended_witness :
    is_standalone_pii "phone" (JsonVal.vNum 5) = false
    ∧ is_standalone_pii "phone" (JsonVal.vStr "") = false
    ∧ weakSignalSpec [("email", JsonVal.vStr "")] "email" = false :=
  ⟨spec_c4_amended.1 "phone" (JsonVal.vNum 5) (Or.inl (by decide)),
   spec_c4_amended.1 "phone" (JsonVal.vStr "") (Or.inr rfl),
   spec_c4_amended.2 [("email", JsonVal.vStr "")] "email" (by decide)⟩

/-- C5: the combinatorial evaluator returns true iff the record carries at
least two signals, where the full-name signal is key presence of
`first_name` with `last_name`, or of `name`, regardless of those values, and
each weak signal requires key presence with a truthy value. -/
theorem spec_c5_combinatorial_rule (record : Record) :
    is_combinatorial_pii record = decide (2 ≤ signalCountSpec record) :=
  comb_eq_count record

/-- C6: a field whose name is outside the redaction target set has the same
value in the output record as in the input record, whether or not the record
was flagged. -/
theorem spec_c6_frame (record_id : String) (record : Record) (key : String)
    (h : key ∉ redactTargetKeys) :
    lookupVal (processRecord record_id record).2.1 key = lookupVal record key := by
  have hproj : (processRecord record_id record).2.1
      = if (recordHasStandalone record || is_combinatorial_pii record)
        then redactRecord record else record := rfl
  rw [hproj]
  cases hp : (recordHasStandalone record || is_combinatorial_pii record) with
  | false => simp
  | true => simp [lookupVal_redact_of_notin record key h]

/-- Witness for `spec_c6_frame`: the `city` field of a phone-flagged record
is untouched. -/
theorem spec_c6_frame_witness :
    "city" ∉ redactTargetKeys
    ∧ lookupVal (processRecord "1"
        [("city", JsonVal.vStr "M"), ("phone", JsonVal.vStr "9876543210")]).2.1 "city"
      = lookupVal [("city", JsonVal.vStr "M"), ("phone", JsonVal.vStr "9876543210")] "city" :=
  ⟨by decide,
   spec_c6_frame "1" [("city", JsonVal.vStr "M"), ("phone", JsonVal.vStr "9876543210")]
     "city" (by decide)⟩

/-- C7: the redaction transform is idempotent — full-replacement fields hold
the fixed marker after the first pass, and a masked phone value fails the
all-digit mask guard, so a second pass changes nothing. -/
theorem spec_c7_redaction_idempotent (record : Record) :
    redactRecord (redactRecord record) = redactRecord record := by
  unfold redactRecord
  rw [List.map_map]
  apply List.map_congr_left
  intro kv _
  by_cases h : kv.1 ∈ redactTargetKeys
  · simp only [Function.comp_apply, if_pos h]
    rw [redact_data_idem]
  · simp only [Function.comp_apply, if_neg h, if_neg h]

/-- C8: end to end, the row whose payload parses to
`phone = "9876543210", email = "a@b.com"` is flagged through the standalone
phone match, the phone is masked to `98XXXXX210`, and the email — in the
target set even though it did not trigger the classification — is replaced
by the marker. -/
theorem spec_c8_end_to_end :
    processDataRow
      (fun s =>
        if s == "\x7b\"phone\":\"9876543210\",\"email\":\"a@b.com\"\x7d"
        then some [("phone", JsonVal.vStr "9876543210"),
                   ("email", JsonVal.vStr "a@b.com")]
        else none)
      ["1", "\x7b\"phone\":\"9876543210\",\"email\":\"a@b.com\"\x7d"]
      = .ok ["1", "\x7b\"phone\": \"98XXXXX210\", \"email\": \"[REDACTED_PII]\"\x7d",
             "True"] := by
  rfl

/-- C9: the emitted `is_pii` flag depends only on the set of (field, value)
pairs of a parsed record (whose keys are unique), not on their order. -/
theorem spec_c9_order_invariant (record_id : String) (r r' : Record)
    (hnd : (r.map Prod.fst).Nodup) (h : r.Perm r') :
    (processRecord record_id r).2.2 = (processRecord record_id r').2.2 := by
  have hlook : ∀ key, lookupVal r key = lookupVal r' key :=
    fun key => lookupVal_of_perm hnd h key
  have hkey : ∀ key, hasKey r key = hasKey r' key := by
    intro key
    unfold hasKey
    rw [hlook]
  have htru : ∀ key, truthyAt r key = truthyAt r' key := by
    intro key
    unfold truthyAt
    rw [hlook]
  have hcomb : is_combinatorial_pii r = is_combinatorial_pii r' := by
    unfold is_combinatorial_pii
    simp only [hkey, htru]
  have hstand : recordHasStandalone r = recordHasStandalone r' := by
    unfold recordHasStandalone
    exact any_of_perm _ h
  show (recordHasStandalone r || is_combinatorial_pii r)
      = (recordHasStandalone r' || is_combinatorial_pii r')
  rw [hcomb, hstand]

/-- Witness for `spec_c9_order_invariant` on a two-field record and its
swap. -/
theorem spec_c9_order_invariant_witness :
    (([("name", JsonVal.vStr "N"), ("email", JsonVal.vStr "e")] : Record).map
        Prod.fst).Nodup
    ∧ ([("name", JsonVal.vStr "N"), ("email", JsonVal.vStr "e")] : Record).Perm
        [("email", JsonVal.vStr "e"), ("name", JsonVal.vStr "N")]
    ∧ (processRecord "9" [("name", JsonVal.vStr "N"), ("email", JsonVal.vStr "e")]).2.2
        = (processRecord "9" [("email", JsonVal.vStr "e"), ("name", JsonVal.vStr "N")]).2.2 :=
  ⟨by decide,
   List.Perm.swap ("email", JsonVal.vStr "e") ("name", JsonVal.vStr "N") [],
   spec_c9_order_invariant "9" _ _ (by decide)
     (List.Perm.swap ("email", JsonVal.vStr "e") ("name", JsonVal.vStr "N") [])⟩

/-- C10: the standalone phone matcher and the masking guard accept different
value sets — `"1234567890\n"` is accepted by the anchored regex (trailing
newline) and flags the record, but fails the length-10 all-digit mask guard,
so the matched phone value passes through unchanged. -/
theorem spec_c10_matcher_mask_gap :
    is_standalone_pii "phone" (.vStr "1234567890\n") = true
    ∧ redact_data "phone" (.vStr "1234567890\n") = .vStr "1234567890\n"
    ∧ (processRecord "7" [("phone", JsonVal.vStr "1234567890\n")]).2.2 = true
    ∧ lookupVal (processRecord "7" [("phone", JsonVal.vStr "1234567890\n")]).2.1 "phone"
        = some (.vStr "1234567890\n") := by
  refine ⟨by decide, by decide, by decide, by decide⟩
